import Mathlib

/-!
Verification development for a YouTube transcript-retrieval service
(single-file FastAPI application `app.py`).

The service resolves a video reference, then tries three acquisition
stages in order: yt-dlp platform subtitles, the youtube-transcript-api
backend, and a Whisper speech-to-text fallback.  External collaborators
(the subtitle manifest, HTTP downloads, the captions backend, the audio
extractor and the transcription service) are modelled as oracle fields of
an environment record; the decision logic of the source is embedded
faithfully on top of them.  Machine floats of the source are modelled as
rationals; filesystem effects (temporary files) are modelled by an
explicit counter state threaded through the pipeline.
-/

namespace YTS

/-- An exception value: Python exception class name plus message text
(`f"{type(e).__name__}: {e}"` is the formatting used by the source). -/
structure Err where
  name : String
  msg : String
deriving DecidableEq, Repr

/-- `f"{type(e).__name__}: {e}"`. -/
def fmtErr (e : Err) : String := e.name ++ ": " ++ e.msg

/-- Python truthiness for strings: `a or b`. -/
def pyStrOr (a b : String) : String := if a = "" then b else a

/-- Python truthiness for an optional string: `a or b` where `a` may be `None`. -/
def pyOptOr (a : Option String) (b : String) : String :=
  match a with
  | none => b
  | some s => pyStrOr s b

/-- Python truthiness of a `t.get("url")` value: `None` and `""` are falsy. -/
def urlTruthy (o : Option String) : Option String :=
  match o with
  | some u => if u = "" then none else some u
  | none => none

/-- Python `s.lower()` (character-wise lowercasing). -/
def lowerStr (s : String) : String := String.mk (s.data.map Char.toLower)

/-- Python `s.strip()` (drop leading and trailing whitespace). -/
def trimStr (s : String) : String :=
  String.mk (((s.data.dropWhile Char.isWhitespace).reverse.dropWhile
    Char.isWhitespace).reverse)

/-! ## Video Reference Resolver (`extract_video_id`, `YID_RE`) -/

/-- The character class `[A-Za-z0-9_-]` of `YID_RE`. -/
def isIdChar (c : Char) : Bool := c.isAlpha || c.isDigit || c = '_' || c = '-'

/-- `re.fullmatch(r"[A-Za-z0-9_-]{11}", s)`: exactly 11 id characters. -/
def valid11 (l : List Char) : Bool := l.length == 11 && l.all isIdChar

/-- The marker `v=` of `YID_RE`. -/
def vMark : List Char := ['v', '=']

/-- The marker `youtu.be/` of `YID_RE`. -/
def ytMark : List Char := ['y', 'o', 'u', 't', 'u', '.', 'b', 'e', '/']

/-- The marker `shorts/` of `YID_RE`. -/
def shMark : List Char := ['s', 'h', 'o', 'r', 't', 's', '/']

/-- One alternative of `YID_RE` tried at a fixed position: the marker must be a
literal prefix here, followed by exactly 11 id characters (the capture). -/
def tryMarker (m s : List Char) : Option (List Char) :=
  if m.isPrefixOf s then
    let cand := (s.drop m.length).take 11
    if valid11 cand then some cand else none
  else none

/-- All three alternatives of `YID_RE` tried at a fixed position, in the
regex's left-to-right order (their first characters are pairwise distinct,
so at most one can fire). -/
def tryHere (s : List Char) : Option (List Char) :=
  match tryMarker vMark s with
  | some r => some r
  | none =>
    match tryMarker ytMark s with
    | some r => some r
    | none => tryMarker shMark s

/-- `YID_RE.search`: scan left to right, returning the capture of the first
position where an alternative matches. -/
def yidSearch : List Char → Option (List Char)
  | [] => none
  | c :: rest =>
    match tryHere (c :: rest) with
    | some r => some r
    | none => yidSearch rest

/-- `extract_video_id` over the character list of the input string. -/
def extract_video_id (s : List Char) : Option (List Char) :=
  if s.isEmpty then none
  else if valid11 s then some s
  else yidSearch s

/-! ## Segment Normalizer (`to_seconds`, `vtt_to_segments`) -/

/-- A parsed `HH:MM:SS[.mmm]` timestamp, split at the colons as in
`to_seconds` (each component already converted by `float`). -/
structure Ts where
  h : ℚ
  m : ℚ
  s : ℚ
deriving DecidableEq, Repr

/-- `to_seconds`: `float(h) * 3600 + float(m) * 60 + float(s)`. -/
def to_seconds (t : Ts) : ℚ := t.h * 3600 + t.m * 60 + t.s

/-- One cue as produced by the external `webvtt` parser: start and end
timestamps and the cue text (`caption.text or ""` of the source; the parser
itself is an external collaborator, so cues are taken as already parsed).
The source attribute `end` is a Lean keyword and is embedded as `stop`. -/
structure Cue where
  start : Ts
  stop : Ts
  text : String
deriving DecidableEq, Repr

/-- Canonical output segment `{start, duration, text}`. -/
structure Segment where
  start : ℚ
  duration : ℚ
  text : String
deriving DecidableEq, Repr

/-- `vtt_to_segments`, given the cues the `webvtt` parser produced:
`start = to_seconds(caption.start)`, `duration = max(0.0, end - start)`,
`text = (caption.text or "").strip()`. -/
def vtt_to_segments (cues : List Cue) : List Segment :=
  cues.map fun c =>
    { start := to_seconds c.start
      duration := max 0 (to_seconds c.stop - to_seconds c.start)
      text := trimStr c.text }

/-! ## Derived result fields (`word_count`, `approx_runtime_seconds`) -/

/-- Token counter behind `len(s.split())`: the flag records whether the
scan is inside a token, so each maximal run of non-whitespace counts
once. -/
def tokAux : Bool → List Char → ℕ
  | _, [] => 0
  | inTok, c :: rest =>
    if c.isWhitespace then tokAux false rest
    else (if inTok then 0 else 1) + tokAux true rest

/-- `len(s.split())`: number of whitespace-delimited tokens. -/
def tokenCount (s : String) : ℕ := tokAux false s.data

/-- `sum(len(s["text"].split()) for s in segs)`. -/
def wordCount (segs : List Segment) : ℕ :=
  (segs.map fun s => tokenCount s.text).sum

/-- Python `max` over a nonempty list (used only under a nonemptiness
guard in the source; the `[]` case is arbitrary). -/
def listMax : List ℚ → ℚ
  | [] => 0
  | x :: xs => xs.foldl max x

/-- `max((s["start"] + s["duration"]) for s in segs) if segs else 0`. -/
def approxRuntime (segs : List Segment) : ℚ :=
  if segs.isEmpty then 0 else listMax (segs.map fun s => s.start + s.duration)

/-! ## Data model of the request and result -/

/-- Request body of `POST /api/transcript` (`TranscriptReq`). -/
structure TranscriptReq where
  url : Option String := none
  video_id : Option String := none
  lang : Option String := none
  translate_to : Option String := none
  allow_auto_captions : Bool := true
deriving DecidableEq, Repr

/-- The JSON object returned on success by `get_transcript`. -/
structure TranscriptResult where
  video_id : String
  source : String
  language : String
  translated : Bool
  segments : List Segment
  word_count : ℕ
  approx_runtime_seconds : ℚ
deriving DecidableEq, Repr

/-- A `fastapi.HTTPException` raised to the caller. -/
structure HTTPError where
  status : ℕ
  detail : String
deriving DecidableEq, Repr

/-- `vid = req.video_id or extract_video_id(req.url or "")` (Python
truthiness: an empty `video_id` falls through to the url). -/
def vidOf (req : TranscriptReq) : Option String :=
  let fromUrl := (extract_video_id (req.url.getD "").data).map fun l => String.mk l
  match req.video_id with
  | some v => if v = "" then fromUrl else some v
  | none => fromUrl

/-- `langs`: `[req.lang] if req.lang else []` followed by
`["en", "en-US", "en-GB"]` (lines 297-299; Python truthiness drops an
empty user tag). -/
def langsOf (req : TranscriptReq) : List String :=
  (match req.lang with
   | some l => if l = "" then [] else [l]
   | none => []) ++ ["en", "en-US", "en-GB"]

/-! ## Platform subtitle stage (`fetch_subs_with_ytdlp`) -/

/-- One entry of a yt-dlp subtitle track list: `t.get("url")` and
`t.get("ext")`. -/
structure Track where
  url : Option String := none
  ext : Option String := none
deriving DecidableEq, Repr

/-- The part of a yt-dlp `extract_info` result that `fetch_subs_with_ytdlp`
reads: the two caption buckets, each an insertion-ordered mapping from
language tag to track list (`info.get(bucket) or {}` makes an absent
bucket the empty mapping). -/
structure Info where
  subtitles : List (String × List Track) := []
  automatic_captions : List (String × List Track) := []
deriving Repr

/-- Outcome of the streamed audio download in `download_to_temp`:
the temp file is created only after `requests.get` + `raise_for_status`
succeed, so an early failure leaves no file while a failure during
`iter_content` leaves the partially written file behind. -/
inductive DlOutcome where
  | failEarly (e : Err)
  | failMid (e : Err)
  | ok
deriving DecidableEq, Repr

/-- Outcome of `get_cookiefile_path_from_env`: the env var is unset, or
set but undecodable (`except: return None`, before any file is written),
or decodes and a `NamedTemporaryFile(delete=False)` is written. -/
inductive CookieOutcome where
  | unset
  | badDecode
  | makesFile
deriving DecidableEq, Repr

/-- A raw transcript item `{start, duration, text}` as returned by
`transcript.fetch()` / `get_transcript` (dict `get` with defaults). -/
structure Item where
  start : Option ℚ := none
  duration : Option ℚ := none
  text : Option String := none
deriving DecidableEq, Repr

/-- A transcript object of the captions backend after selection or
translation, as read by the source: its `language_code` attribute
(`getattr(..., "language_code", None)`) and the outcome of `.fetch()`. -/
structure TBase where
  language_code : Option String
  fetchR : Except Err (List Item)

/-- A selectable transcript of the captions backend: its observable base
plus the outcome of `.translate(target)`. -/
structure Transcript where
  base : TBase
  translateR : String → Except Err TBase

/-- The discovery handle returned by
`YouTubeTranscriptApi.list_transcripts`: the two finders (each takes a
language-code list and either returns a transcript or raises) and the
key sets of the private `_manually_created_transcripts` /
`_generated_transcripts` dictionaries. -/
structure TranscriptList where
  findManual : List String → Except Err Transcript
  findGenerated : List String → Except Err Transcript
  manualKeys : List String
  generatedKeys : List String

/-- Format entry of a yt-dlp `formats` list, as read by
`select_best_audio_format`. -/
structure Format where
  vcodec : Option String := none
  acodec : Option String := none
  abr : Option ℚ := none
  url : Option String := none
deriving DecidableEq, Repr

/-- The part of the second `extract_info` result that
`get_audio_url_with_ytdlp` reads. -/
structure AudioInfo where
  formats : List Format := []
  url : Option String := none
deriving DecidableEq, Repr

/-- All external collaborators of one request, as oracles: the yt-dlp
manifest probe, HTTP track download, the external VTT parser, the
captions backend in both capability modes, the audio-format probe, the
streamed audio download and the transcription call, plus the cookie
environment variable. -/
structure Env where
  cookieEnv : CookieOutcome := .unset
  subsInfo : Except Err Info := .error ⟨"DownloadError", "probe failed"⟩
  fetchUrl : String → Except Err String := fun _ => .error ⟨"HTTPError", "fetch failed"⟩
  parseVtt : String → Except Err (List Cue) := fun _ => .error ⟨"MalformedFileError", "parse failed"⟩
  listAvail : Bool := true
  listTranscripts : Except Err TranscriptList := .error ⟨"TranscriptsDisabled", "disabled"⟩
  getByLang : Option String → Except Err (List Item) := fun _ => .error ⟨"NoTranscriptFound", "no transcript"⟩
  audioInfo : Except Err AudioInfo := .error ⟨"DownloadError", "probe failed"⟩
  download : String → DlOutcome := fun _ => .failEarly ⟨"HTTPError", "download failed"⟩
  transcribe : Except Err String := .error ⟨"APIError", "transcription failed"⟩

/-- Filesystem state: how many cookie files and how many temporary audio
files currently exist on disk. -/
structure FS where
  cookies : ℕ
  audio : ℕ
deriving DecidableEq, Repr

/-- Effect of one `ydl_with_optional_cookies_opts()` call on disk:
`get_cookiefile_path_from_env` writes a fresh `NamedTemporaryFile
(delete=False)` whenever the env var decodes. -/
def addCookie (env : Env) (fs : FS) : FS :=
  match env.cookieEnv with
  | .makesFile => { fs with cookies := fs.cookies + 1 }
  | _ => fs

/-- A selected caption payload of the platform stage:
`(segments, source, language)`. -/
abbrev SubsHit := List Segment × String × String

/-- `submap.get(lang)`: ordered-dict lookup. -/
def lookupTracks (m : List (String × List Track)) (c : String) : Option (List Track) :=
  (m.find? fun p => p.1 == c).map fun p => p.2

/-- Loop body shared by both loops of `fetch_subs_with_ytdlp` once a track
with a truthy url is reached: `requests.get` + `raise_for_status`, then
`vtt_to_segments` for `ext == "vtt"` or the whole payload wrapped as one
segment.  A download or parse failure propagates out of the stage. -/
def downloadTrack (env : Env) (src lang : String) (t : Track) :
    Except Err (Option SubsHit) :=
  match urlTruthy t.url with
  | none => .ok none
  | some u =>
    match env.fetchUrl u with
    | .error e => .error e
    | .ok body =>
      if lowerStr (t.ext.getD "") = "vtt" then
        match env.parseVtt body with
        | .error e => .error e
        | .ok cues => .ok (some (vtt_to_segments cues, src, lang))
      else .ok (some ([⟨0, 0, body⟩], src, lang))

/-- Inner loop `for t in tracks`: tracks with a falsy url are skipped
(`if not url: continue`); the first truthy one is downloaded. -/
def tryTracks (env : Env) (src lang : String) : List Track → Except Err (Option SubsHit)
  | [] => .ok none
  | t :: rest =>
    match urlTruthy t.url with
    | none => tryTracks env src lang rest
    | some u =>
      match env.fetchUrl u with
      | .error e => .error e
      | .ok body =>
        if lowerStr (t.ext.getD "") = "vtt" then
          match env.parseVtt body with
          | .error e => .error e
          | .ok cues => .ok (some (vtt_to_segments cues, src, lang))
        else .ok (some ([⟨0, 0, body⟩], src, lang))

/-- First loop, `for lang_try in ("en", "en-US", "en-GB")`: a language
whose track list is absent or empty is skipped (`if not tracks:
continue`); a language whose tracks all lack urls falls through to the
next language. -/
def tryLangs (env : Env) (src : String) (m : List (String × List Track)) :
    List String → Except Err (Option SubsHit)
  | [] => .ok none
  | c :: rest =>
    match lookupTracks m c with
    | none => tryLangs env src m rest
    | some [] => tryLangs env src m rest
    | some (t :: ts) =>
      match tryTracks env src c (t :: ts) with
      | .ok none => tryLangs env src m rest
      | r => r

/-- Second loop, `for lang, tracks in submap.items()`: first available
language in manifest order, regardless of requested language. -/
def tryAnyLang (env : Env) (src : String) :
    List (String × List Track) → Except Err (Option SubsHit)
  | [] => .ok none
  | (lang, ts) :: rest =>
    match tryTracks env src lang ts with
    | .ok none => tryAnyLang env src rest
    | r => r

/-- Both loops for one bucket: English variants first, then first
available. -/
def tryBucket (env : Env) (src : String) (m : List (String × List Track)) :
    Except Err (Option SubsHit) :=
  match tryLangs env src m ["en", "en-US", "en-GB"] with
  | .ok none => tryAnyLang env src m
  | r => r

/-- `fetch_subs_with_ytdlp`: probe the manifest, then iterate
`for bucket in ("subtitles", "automatic_captions")`.  Returns
`.ok none` for the `(None, None, None)` outcome; exceptions of the probe,
a download or the VTT parser propagate as `.error`. -/
def fetch_subs_with_ytdlp (env : Env) : Except Err (Option SubsHit) :=
  match env.subsInfo with
  | .error e => .error e
  | .ok info =>
    match tryBucket env "human_captions" info.subtitles with
    | .ok none => tryBucket env "auto_captions" info.automatic_captions
    | r => r

/-! ## Captions-API stage (`get_transcript` lines 296-376) -/

/-- Transcript selection of discovery mode (lines 304-328): preferred
languages against the human finder, then (if automatic captions are
allowed) against the generated finder, then the all-keys fallbacks.  The
`source` component tracks the source-variable bookkeeping of the code. -/
def selectTranscript (tl : TranscriptList) (langs : List String) (allowAuto : Bool) :
    Option (Transcript × String) :=
  let m1 := (langs.map fun c => tl.findManual [c]).findSome? fun r =>
    match r with
    | .ok t => some t
    | .error _ => none
  match m1 with
  | some t => some (t, "human_captions")
  | none =>
    let m2 := if allowAuto then
        (langs.map fun c => tl.findGenerated [c]).findSome? fun r =>
          match r with
          | .ok t => some t
          | .error _ => none
      else none
    match m2 with
    | some t => some (t, "auto_captions")
    | none =>
      match tl.findManual tl.manualKeys with
      | .ok t => some (t, "human_captions")
      | .error _ =>
        if allowAuto then
          match tl.findGenerated tl.generatedKeys with
          | .ok t => some (t, "auto_captions")
          | .error _ => none
        else none

/-- Translation attempt (lines 332-337): only when `translate_to` is
truthy and differs from the selected transcript's `language_code`
(`tgt != None` is true in Python); a failure is swallowed and leaves the
untranslated transcript with `translated = False`. -/
def translateStep (t : Transcript) (tgt? : Option String) : TBase × Bool :=
  match tgt? with
  | none => (t.base, false)
  | some tgt =>
    if tgt != "" && (match t.base.language_code with
                     | some l => tgt != l
                     | none => true) then
      match t.translateR tgt with
      | .ok tb => (tb, true)
      | .error _ => (t.base, false)
    else (t.base, false)

/-- The `NoTranscriptFound(vid)` exception raised by the source itself
(message text abstracted to the video id). -/
def noTranscriptFoundErr (vid : String) : Err := ⟨"NoTranscriptFound", vid⟩

/-- Direct-mode loop (lines 345-351): try each language;
`NoTranscriptFound` continues, `TranscriptsDisabled` raises an
`HTTPException` (which, being an `Exception`, is itself caught by the
stage's outer handler), any other exception propagates. -/
def directFetch (env : Env) : List String → Except Err (Option (List Item × String))
  | [] => .ok none
  | c :: rest =>
    match env.getByLang (some c) with
    | .ok items => .ok (some (items, c))
    | .error e =>
      if e.name = "NoTranscriptFound" then directFetch env rest
      else if e.name = "TranscriptsDisabled" then
        .error ⟨"HTTPException", "404: Transcript unavailable"⟩
      else .error e

/-- `float(it.get("start", 0.0)), float(it.get("duration", 0.0)),
it.get("text", "")`. -/
def itemToSeg (it : Item) : Segment :=
  ⟨it.start.getD 0, it.duration.getD 0, it.text.getD ""⟩

/-- Shared result constructor of the two caption stages (lines 284-292 and
365-373): `word_count` and `approx_runtime_seconds` are derived from the
segments exactly as in the source (every segment dict carries a
`duration` key, so the `is not None` filter of line 283 is the
identity). -/
def mkCaptionResult (vid src lang : String) (translated : Bool)
    (segs : List Segment) : TranscriptResult :=
  { video_id := vid
    source := src
    language := lang
    translated := translated
    segments := segs
    word_count := wordCount segs
    approx_runtime_seconds := approxRuntime segs }

/-- The youtube-transcript-api stage (the body of the `try` at lines
301-373): discovery mode when `list_transcripts` exists, else direct
mode.  Any raised exception is the `.error` outcome, which the
orchestrator records and recovers from. -/
def ytaStage (env : Env) (req : TranscriptReq) (vid : String) :
    Except Err TranscriptResult :=
  let langs := langsOf req
  if env.listAvail then
    match env.listTranscripts with
    | .error e => .error e
    | .ok tl =>
      match selectTranscript tl langs req.allow_auto_captions with
      | none => .error (noTranscriptFoundErr vid)
      | some (t, source) =>
        match translateStep t req.translate_to with
        | (tb, translated) =>
          match tb.fetchR with
          | .error e => .error e
          | .ok items =>
            .ok (mkCaptionResult vid source
              (pyOptOr tb.language_code (pyOptOr req.lang "unknown"))
              translated (items.map itemToSeg))
  else
    match directFetch env langs with
    | .error e => .error e
    | .ok (some (items, c)) =>
      .ok (mkCaptionResult vid "unknown"
        (pyStrOr c (pyOptOr req.lang "unknown")) false (items.map itemToSeg))
    | .ok none =>
      if req.allow_auto_captions then
        match env.getByLang none with
        | .ok items =>
          .ok (mkCaptionResult vid "unknown"
            (pyStrOr (pyOptOr req.lang "unknown") (pyOptOr req.lang "unknown"))
            false (items.map itemToSeg))
        | .error _ => .error (noTranscriptFoundErr vid)
      else .error (noTranscriptFoundErr vid)

/-! ## Audio transcription stage (lines 378-400) -/

/-- `select_best_audio_format`: keep audio-only formats, then the first
element of the stable descending sort by `float(f.get("abr", 0.0))` —
i.e. the first format attaining the maximal bitrate. -/
def select_best_audio_format (formats : List Format) : Option Format :=
  let audioOnly := formats.filter fun f =>
    (f.vcodec == none || f.vcodec == some "none")
      && !(f.acodec == none || f.acodec == some "none")
  audioOnly.foldl (fun acc f =>
    match acc with
    | none => some f
    | some g => if f.abr.getD 0 > g.abr.getD 0 then some f else some g) none

/-- `get_audio_url_with_ytdlp` applied to a probed `AudioInfo`:
`if fmt and fmt.get("url"): return fmt["url"]; return info.get("url")`
(Python truthiness on the url strings). -/
def audioUrlOf (ai : AudioInfo) : Option String :=
  match select_best_audio_format ai.formats with
  | some f =>
    match urlTruthy f.url with
    | some u => some u
    | none => urlTruthy ai.url
  | none => urlTruthy ai.url

/-- The whisper fallback body (lines 380-390), with its filesystem
effects: a cookie file may be written by the `extract_info` call; the
audio temp file exists only between a successful `download_to_temp`
and the unconditional `finally: os.remove`, except that a failure in the
middle of the streamed download leaves the partially written file. -/
def whisperStage (env : Env) (fs : FS) : Except Err String × FS :=
  let fs1 := addCookie env fs
  match env.audioInfo with
  | .error e => (.error e, fs1)
  | .ok ai =>
    match audioUrlOf ai with
    | none => (.error ⟨"RuntimeError",
        "yt-dlp could not get an audio URL (likely cookie/challenge)"⟩, fs1)
    | some u =>
      match env.download u with
      | .failEarly e => (.error e, fs1)
      | .failMid e => (.error e, { fs1 with audio := fs1.audio + 1 })
      | .ok =>
        match env.transcribe with
        | .error e => (.error e, fs1)
        | .ok text => (.ok text, fs1)

/-! ## Acquisition orchestrator (`get_transcript`) -/

/-- The tail of `get_transcript` from the whisper fallback on: build the
whisper result on success, or the aggregate 404 whose detail interpolates
the current `last_error` and the whisper error. -/
def whisperCont (env : Env) (req : TranscriptReq) (vid lastError : String)
    (fs : FS) : Except HTTPError TranscriptResult × FS :=
  match whisperStage env fs with
  | (.ok text, fs2) =>
    (.ok { video_id := vid
           source := "whisper_transcription"
           language := pyOptOr req.lang "unknown"
           translated := false
           segments := [⟨0, 0, text⟩]
           word_count := tokenCount text
           approx_runtime_seconds := 0 }, fs2)
  | (.error e2, fs2) =>
    (.error ⟨404, "Transcript unavailable; last_error=\x27" ++ lastError
      ++ "\x27 whisper_error=\x27" ++ fmtErr e2 ++ "\x27"⟩, fs2)

/-- The tail of `get_transcript` from the captions-API stage on.  A
failure of that stage overwrites `last_error` (the previous value,
passed here, is discarded) before the whisper fallback runs. -/
def ytaCont (env : Env) (req : TranscriptReq) (vid _lastError : String)
    (fs : FS) : Except HTTPError TranscriptResult × FS :=
  match ytaStage env req vid with
  | .ok r => (.ok r, fs)
  | .error e => whisperCont env req vid ("yta fallback: " ++ fmtErr e) fs

/-- `get_transcript` after authentication: resolve the video id (else
400), then platform subtitles (an empty segment list is falsy and falls
through), then the captions-API stage, then whisper. -/
def get_transcript (env : Env) (req : TranscriptReq) (fs : FS) :
    Except HTTPError TranscriptResult × FS :=
  match vidOf req with
  | none => (.error ⟨400, "Missing or invalid video id/url"⟩, fs)
  | some vid =>
    let fs1 := addCookie env fs
    match fetch_subs_with_ytdlp env with
    | .ok (some (segs, src, langFound)) =>
      if segs.isEmpty then ytaCont env req vid "none" fs1
      else
        (.ok (mkCaptionResult vid src
          (pyStrOr langFound (pyOptOr req.lang "unknown")) false segs), fs1)
    | .ok none => ytaCont env req vid "none" fs1
    | .error e => ytaCont env req vid ("yt-dlp subtitles: " ++ fmtErr e) fs1

/-! ## Flattened view of the platform stage's real candidate order -/

/-- Candidates contributed by the first loop of a bucket: for each of the
three English variants, in order, all tracks listed under that tag. -/
def phaseLangs (m : List (String × List Track)) (src : String) :
    List String → List (String × String × Track)
  | [] => []
  | c :: rest =>
    (match lookupTracks m c with
     | some ts => ts.map fun t => (src, c, t)
     | none => []) ++ phaseLangs m src rest

/-- Candidates contributed by the second loop of a bucket: every track of
every language, in manifest iteration order. -/
def phaseAll (src : String) :
    List (String × List Track) → List (String × String × Track)
  | [] => []
  | (lang, ts) :: rest => (ts.map fun t => (src, lang, t)) ++ phaseAll src rest

/-- All candidates of one bucket, in the order the code visits them. -/
def bucketCands (src : String) (m : List (String × List Track)) :
    List (String × String × Track) :=
  phaseLangs m src ["en", "en-US", "en-GB"] ++ phaseAll src m

/-- The code's complete candidate order: the human-authored bucket is
exhausted (English variants, then any language) before the auto-generated
bucket is consulted at all, and the user-requested language never
appears. -/
def candidates (info : Info) : List (String × String × Track) :=
  bucketCands "human_captions" info.subtitles
    ++ bucketCands "auto_captions" info.automatic_captions

/-- A candidate is selectable when its track has a truthy url. -/
def hasUrl (c : String × String × Track) : Bool := (urlTruthy c.2.2.url).isSome

/-- First selectable candidate. -/
def firstUrlCand (l : List (String × String × Track)) :
    Option (String × String × Track) :=
  l.find? hasUrl

/-- Download the selected candidate, or report the no-subtitles miss. -/
def applyCand (env : Env) :
    Option (String × String × Track) → Except Err (Option SubsHit)
  | none => .ok none
  | some (src, lang, t) => downloadTrack env src lang t

/-- The four-step priority as worded by the specification (§4.2): each
language of the LanguagePreference against the human-authored bucket,
then against the auto-generated bucket, then the first available language
of the human-authored bucket, then of the auto-generated bucket; a
present language contributes its first track. -/
def specSelectTrack (langs : List String) (info : Info) :
    Option (String × String × Track) :=
  (langs.findSome? fun c =>
    match lookupTracks info.subtitles c with
    | some (t :: _) => some ("human_captions", c, t)
    | _ => none) <|>
  (langs.findSome? fun c =>
    match lookupTracks info.automatic_captions c with
    | some (t :: _) => some ("auto_captions", c, t)
    | _ => none) <|>
  (info.subtitles.findSome? fun p =>
    p.2.head?.map fun t => ("human_captions", p.1, t)) <|>
  (info.automatic_captions.findSome? fun p =>
    p.2.head?.map fun t => ("auto_captions", p.1, t))

/-! ## Auxiliary predicates for the resolver claim -/

/-- The input contains a supported URL shape: one of the three markers
followed immediately by 11 id characters. -/
def HasShape (s : List Char) : Prop :=
  ∃ pre m w post, (m = vMark ∨ m = ytMark ∨ m = shMark) ∧ valid11 w = true ∧
    s = pre ++ m ++ w ++ post

/-- Substring test (needle occurs contiguously in haystack). -/
def hasSub (needle : List Char) : List Char → Bool
  | [] => needle.isEmpty
  | c :: rest => needle.isPrefixOf (c :: rest) || hasSub needle rest

/-! ## Concrete environments used by counterexamples and witnesses -/

/-- A `VideoUnavailable` error of the captions backend. -/
def vuErr : Err := ⟨"VideoUnavailable", "video is unavailable or private"⟩

/-- An audio-only format list for whisper-path environments. -/
def okAudio : AudioInfo :=
  { formats := [{ vcodec := some "none", acodec := some "mp4a", abr := some 128,
                  url := some "audio-url" }] }

/-- C1: empty manifest, captions backend raises `VideoUnavailable`,
whisper succeeds. -/
def c1env : Env :=
  { subsInfo := .ok {}
    listTranscripts := .error vuErr
    audioInfo := .ok okAudio
    download := fun _ => .ok
    transcribe := .ok "spoken words here" }

/-- Request with only a bare video id. -/
def bareReq : TranscriptReq := { video_id := some "abcdefghijk" }

/-- An auto-generated English track. -/
def enTrack : Track := { url := some "auto-en-url", ext := some "srv3" }

/-- A human-authored French track. -/
def frTrack : Track := { url := some "fr-url", ext := some "srv3" }

/-- C2: manifest exposing only an auto-generated English track. -/
def c2env : Env :=
  { subsInfo := .ok { automatic_captions := [("en", [enTrack])] }
    fetchUrl := fun _ => .ok "hello world" }

/-- C2: request that forbids automatic captions. -/
def c2req : TranscriptReq :=
  { video_id := some "abcdefghijk", allow_auto_captions := false }

/-- A transcript returned by concrete caption backends. -/
def c2t : Transcript :=
  ⟨⟨some "en", .ok []⟩, fun _ => .error ⟨"NotTranslatable", "no translation"⟩⟩

/-- A discovery handle whose human finder succeeds. -/
def c2tl : TranscriptList :=
  { findManual := fun _ => .ok c2t
    findGenerated := fun _ => .error ⟨"NoTranscriptFound", "none"⟩
    manualKeys := ["en"]
    generatedKeys := [] }

/-- C3: manifest with a human French track and an auto English track. -/
def c3info : Info :=
  { subtitles := [("fr", [frTrack])], automatic_captions := [("en", [enTrack])] }

/-- C3: environment serving that manifest. -/
def c3env : Env := { subsInfo := .ok c3info, fetchUrl := fun _ => .ok "bonjour" }

/-- C4: every stage fails, with distinctive error class names. -/
def c4env : Env :=
  { subsInfo := .error ⟨"SubsBoom", "stage zero failed"⟩
    listTranscripts := .error ⟨"TranscriptsDisabled", "captions disabled"⟩
    audioInfo := .error ⟨"AudioBoom", "no formats"⟩ }

/-- The aggregate 404 detail the code produces for `c4env`. -/
def c4detail : String :=
  "Transcript unavailable; last_error=\x27yta fallback: TranscriptsDisabled: captions disabled\x27 whisper_error=\x27AudioBoom: no formats\x27"

/-- C7: cookie bundle decodes, platform subtitles succeed. -/
def c7env : Env :=
  { cookieEnv := .makesFile
    subsInfo := .ok { subtitles := [("fr", [frTrack])] }
    fetchUrl := fun _ => .ok "bonjour" }

/-- C7 witness: no cookie bundle, whisper download succeeds but
transcription fails. -/
def c7wEnv : Env :=
  { audioInfo := .ok okAudio
    download := fun _ => .ok }

/-- C8: transcript whose translation fails but whose fetch succeeds. -/
def c8t : Transcript :=
  ⟨⟨some "en", .ok [⟨some 1, some 2, some "guten tag"⟩]⟩,
   fun _ => .error ⟨"TranslationError", "not translatable"⟩⟩

/-- C8: discovery handle selecting `c8t` as a human transcript. -/
def c8tl : TranscriptList :=
  { findManual := fun _ => .ok c8t
    findGenerated := fun _ => .error ⟨"NoTranscriptFound", "none"⟩
    manualKeys := ["en"]
    generatedKeys := [] }

/-- C8: environment exposing that handle. -/
def c8env : Env := { listTranscripts := .ok c8tl }

/-- C8: request asking for a German translation. -/
def c8req : TranscriptReq :=
  { video_id := some "abcdefghijk", translate_to := some "de" }

/-- C10: whisper succeeds. -/
def c10env : Env :=
  { audioInfo := .ok okAudio
    download := fun _ => .ok
    transcribe := .ok "hi there friend" }

/-- C10: request whose `lang` is the provided-but-empty string. -/
def c10req : TranscriptReq := { video_id := some "abcdefghijk", lang := some "" }

/-- C10 witness request: a provided non-empty `lang`. -/
def c10wReq : TranscriptReq := { video_id := some "abcdefghijk", lang := some "fr" }

/-- The whisper result the code produces for `c10env` and `c10wReq`. -/
def c10wRes : TranscriptResult :=
  { video_id := "abcdefghijk", source := "whisper_transcription", language := "fr",
    translated := false, segments := [⟨0, 0, "hi there friend"⟩], word_count := 3,
    approx_runtime_seconds := 0 }

/-- C6 witness cue: end before start. -/
def c6cue : Cue := ⟨⟨0, 0, 5⟩, ⟨0, 0, 2⟩, "late"⟩

/-- C5 witness: a yta direct-mode environment with one item. -/
def c5env : Env :=
  { listAvail := false
    getByLang := fun c =>
      match c with
      | some "en" => .ok [⟨some 3, some 4, some "two words"⟩]
      | _ => .error ⟨"NoTranscriptFound", "none"⟩ }

/-- The result-shape invariant of the specification: `word_count` is the
total whitespace-token count of the segment texts, and
`approx_runtime_seconds` is `max(start+duration)` over the segments, `0`
when there are none. -/
def resultInv (r : TranscriptResult) : Prop :=
  r.word_count = (r.segments.map fun s => tokenCount s.text).sum ∧
  r.approx_runtime_seconds =
    (if r.segments.isEmpty then 0
     else listMax (r.segments.map fun s => s.start + s.duration))

/-! # Theorems -/

/-- C6: for every timed-text cue processed by the Segment Normalizer, the
emitted segment's duration equals `max(0, end - start)` of the parsed cue
timestamps, is never negative, and is exactly `0` whenever `end < start`. -/
theorem C6_thm (cues : List Cue) (i : ℕ) (hi : i < cues.length) :
    ∃ hj : i < (vtt_to_segments cues).length,
      ((vtt_to_segments cues).get ⟨i, hj⟩).duration =
        max 0 (to_seconds (cues.get ⟨i, hi⟩).stop - to_seconds (cues.get ⟨i, hi⟩).start) ∧
      0 ≤ ((vtt_to_segments cues).get ⟨i, hj⟩).duration ∧
      (to_seconds (cues.get ⟨i, hi⟩).stop < to_seconds (cues.get ⟨i, hi⟩).start →
        ((vtt_to_segments cues).get ⟨i, hj⟩).duration = 0) := by
  have hj : i < (vtt_to_segments cues).length := by
    simpa [vtt_to_segments] using hi
  refine ⟨hj, ?_, ?_, ?_⟩
  · simp [vtt_to_segments]
  · simp [vtt_to_segments]
  · intro hlt
    simp only [vtt_to_segments, List.get_eq_getElem, List.getElem_map]
    exact max_eq_left (sub_nonpos.mpr hlt.le)

/-- Witness for C6 at a concrete inverted cue. -/
theorem C6_witness :
    ((vtt_to_segments [c6cue]).get ⟨0, by decide⟩).duration = 0 := by
  obtain ⟨hj, h1, h2, h3⟩ := C6_thm [c6cue] 0 (by decide)
  exact h3 (by norm_num [c6cue, to_seconds])

/-- C1 counterexample: with the captions-API stage raising
`VideoUnavailable` (and the platform stage missing), the pipeline does
not fail with a not-found result — it invokes the audio-transcription
stage and returns its result. -/
theorem C1_counterexample :
    c1env.listTranscripts = .error vuErr ∧ vuErr.name = "VideoUnavailable" ∧
    (get_transcript c1env bareReq ⟨0, 0⟩).1 =
      .ok { video_id := "abcdefghijk", source := "whisper_transcription",
            language := "unknown", translated := false,
            segments := [⟨0, 0, "spoken words here"⟩], word_count := 3,
            approx_runtime_seconds := 0 } :=
  ⟨rfl, rfl, rfl⟩

/-- C2 counterexample: with `allow_auto_captions = false`, the platform
subtitle stage still selects and downloads a track of the auto-generated
bucket. -/
theorem C2_counterexample :
    c2req.allow_auto_captions = false ∧
    (get_transcript c2env c2req ⟨0, 0⟩).1 =
      .ok (mkCaptionResult "abcdefghijk" "auto_captions" "en" false
        [⟨0, 0, "hello world"⟩]) ∧
    (mkCaptionResult "abcdefghijk" "auto_captions" "en" false
      [⟨0, 0, "hello world"⟩]).source = "auto_captions" :=
  ⟨rfl, rfl, rfl⟩

/-- C3 counterexample: on a manifest with a human French track and an
auto English track (and no user language), the claim's four-step priority
selects the auto English track, but the code selects the human French
track — the claimed order is not the code's order. -/
theorem C3_counterexample :
    specSelectTrack (langsOf bareReq) c3info = some ("auto_captions", "en", enTrack) ∧
    fetch_subs_with_ytdlp c3env =
      .ok (some ([⟨0, 0, "bonjour"⟩], "human_captions", "fr")) ∧
    (("human_captions", "fr") : String × String) ≠ ("auto_captions", "en") :=
  ⟨rfl, rfl, by decide⟩

/-- C4 counterexample: when the platform stage, the captions-API stage
and the whisper stage all fail, the 404 detail carries only the
captions-API diagnostic and the whisper error — the platform stage's
diagnostic (`SubsBoom` under the `yt-dlp subtitles` label) is absent. -/
theorem C4_counterexample :
    (get_transcript c4env bareReq ⟨0, 0⟩).1 = .error ⟨404, c4detail⟩ ∧
    hasSub "SubsBoom".data c4detail.data = false ∧
    hasSub "yt-dlp subtitles".data c4detail.data = false ∧
    hasSub "yta fallback: TranscriptsDisabled".data c4detail.data = true :=
  ⟨rfl, by decide, by decide, by decide⟩

/-- C7 counterexample: a request served successfully from platform
subtitles while the credential bundle decodes leaves the decoded cookie
file on disk after the request completes. -/
theorem C7_counterexample :
    (get_transcript c7env bareReq ⟨0, 0⟩).1 =
      .ok (mkCaptionResult "abcdefghijk" "human_captions" "fr" false
        [⟨0, 0, "bonjour"⟩]) ∧
    (get_transcript c7env bareReq ⟨0, 0⟩).2 = ⟨1, 0⟩ ∧
    ((⟨1, 0⟩ : FS) ≠ ⟨0, 0⟩) :=
  ⟨rfl, rfl, by decide⟩

/-- C1 amended: an error raised by the captions-API stage — including
`VideoUnavailable` — is handled like any recoverable miss: it is recorded
as the `yta fallback` diagnostic and the pipeline proceeds to the
audio-transcription stage, whose outcome decides the request. -/
theorem C1_amended_thm (env : Env) (req : TranscriptReq) (fs : FS) (vid : String)
    (e : Err) (hvid : vidOf req = some vid)
    (hsubs : fetch_subs_with_ytdlp env = .ok none)
    (hlist : env.listAvail = true) (htl : env.listTranscripts = .error e) :
    get_transcript env req fs =
      whisperCont env req vid ("yta fallback: " ++ fmtErr e) (addCookie env fs) := by
  simp [get_transcript, ytaCont, ytaStage, hvid, hsubs, hlist, htl]

/-- Witness for C1 amended at `c1env` (whose captions backend raises
`VideoUnavailable`). -/
theorem C1_amended_witness :
    get_transcript c1env bareReq ⟨0, 0⟩ =
      whisperCont c1env bareReq "abcdefghijk" ("yta fallback: " ++ fmtErr vuErr)
        (addCookie c1env ⟨0, 0⟩) :=
  C1_amended_thm c1env bareReq ⟨0, 0⟩ "abcdefghijk" vuErr rfl rfl rfl rfl

/-- C4 amended: when all three stages fail, the 404 detail carries the
captions-API stage's diagnostic and the whisper error only; the platform
stage's diagnostic has been overwritten, not concatenated. -/
theorem C4_amended_thm (env : Env) (req : TranscriptReq) (fs fs2 : FS)
    (vid : String) (e0 e1 e2 : Err) (hvid : vidOf req = some vid)
    (hsubs : fetch_subs_with_ytdlp env = .error e0)
    (hyta : ytaStage env req vid = .error e1)
    (hw : whisperStage env (addCookie env fs) = (.error e2, fs2)) :
    get_transcript env req fs =
      (.error ⟨404, "Transcript unavailable; last_error=\x27yta fallback: "
        ++ fmtErr e1 ++ "\x27 whisper_error=\x27" ++ fmtErr e2 ++ "\x27"⟩, fs2) := by
  simp [get_transcript, ytaCont, whisperCont, hvid, hsubs, hyta, hw]
  rw [← String.append_assoc]
  rfl

/-- Witness for C4 amended at `c4env`. -/
theorem C4_amended_witness :
    get_transcript c4env bareReq ⟨0, 0⟩ = (.error ⟨404, c4detail⟩, ⟨0, 0⟩) :=
  C4_amended_thm c4env bareReq ⟨0, 0⟩ ⟨0, 0⟩ "abcdefghijk"
    ⟨"SubsBoom", "stage zero failed"⟩
    ⟨"TranscriptsDisabled", "captions disabled"⟩
    ⟨"AudioBoom", "no formats"⟩ rfl rfl rfl rfl

/-- If the credential bundle does not decode to a file, the cookie step
leaves the disk unchanged. -/
theorem addCookie_eq (env : Env) (fs : FS) (h : env.cookieEnv ≠ .makesFile) :
    addCookie env fs = fs := by
  cases hc : env.cookieEnv <;> simp_all [addCookie]

/-- The whisper branch hands back exactly the filesystem state that
`whisperStage` produced. -/
theorem whisperCont_snd (env : Env) (req : TranscriptReq) (vid le : String)
    (fs : FS) : (whisperCont env req vid le fs).2 = (whisperStage env fs).2 := by
  unfold whisperCont
  rcases h : whisperStage env fs with ⟨r, fs2⟩
  cases r <;> simp

/-- Without a decoding credential bundle and without a mid-download
failure, the whisper stage deletes its audio file on every exit path. -/
theorem whisperStage_snd (env : Env) (fs : FS) (h : env.cookieEnv ≠ .makesFile)
    (hd : ∀ u e, env.download u ≠ .failMid e) : (whisperStage env fs).2 = fs := by
  have ha : addCookie env fs = fs := addCookie_eq env fs h
  simp only [whisperStage, ha]
  cases hai : env.audioInfo with
  | error e => simp
  | ok ai =>
    cases hau : audioUrlOf ai with
    | none => simp [hau]
    | some u =>
      cases hdu : env.download u with
      | failEarly e => simp [hau, hdu]
      | failMid e => exact absurd hdu (hd u e)
      | ok => cases env.transcribe <;> simp [hau, hdu]

/-- The captions-API continuation preserves the filesystem state under the
same conditions. -/
theorem ytaCont_snd (env : Env) (req : TranscriptReq) (vid le : String)
    (fs : FS) (h : env.cookieEnv ≠ .makesFile)
    (hd : ∀ u e, env.download u ≠ .failMid e) :
    (ytaCont env req vid le fs).2 = fs := by
  unfold ytaCont
  cases ytaStage env req vid <;>
    simp [whisperCont_snd, whisperStage_snd env fs h hd]

/-- C7 amended: the audio temp file is released on every exit path in
which the streamed download did not abort midway, and no file persists
when the credential bundle does not decode; but a decoding bundle leaves
its cookie file, and a mid-download failure leaves the partial audio
file. -/
theorem C7_amended_thm (env : Env) (req : TranscriptReq) (fs : FS)
    (hc : env.cookieEnv ≠ .makesFile)
    (hd : ∀ u e, env.download u ≠ .failMid e) :
    (get_transcript env req fs).2 = fs := by
  have ha : addCookie env fs = fs := addCookie_eq env fs hc
  simp only [get_transcript, ha]
  split
  · rfl
  · split
    · split
      · exact ytaCont_snd env req _ _ fs hc hd
      · rfl
    · exact ytaCont_snd env req _ _ fs hc hd
    · exact ytaCont_snd env req _ _ fs hc hd

/-- Witness for C7 amended: a failing request without a credential bundle
(transcription fails after a clean download) leaves the disk unchanged. -/
theorem C7_amended_witness :
    (get_transcript c7wEnv bareReq ⟨3, 1⟩).2 = ⟨3, 1⟩ :=
  C7_amended_thm c7wEnv bareReq ⟨3, 1⟩ (by decide)
    (fun _ e h => DlOutcome.noConfusion h)

/-- C2 amended: `allow_auto_captions = false` is honored only by the
captions-API stage — its selection never yields a generated transcript —
while the platform subtitle stage consults the auto-generated bucket
unconditionally and returns whatever track it selected there. -/
theorem C2_amended_thm :
    (∀ tl langs t s, selectTranscript tl langs false = some (t, s) →
      s = "human_captions") ∧
    (∀ env req fs vid segs src lf, vidOf req = some vid →
      req.allow_auto_captions = false →
      fetch_subs_with_ytdlp env = .ok (some (segs, src, lf)) →
      segs.isEmpty = false →
      (get_transcript env req fs).1 =
        .ok (mkCaptionResult vid src (pyStrOr lf (pyOptOr req.lang "unknown"))
          false segs)) := by
  constructor
  · intro tl langs t s h
    simp only [selectTranscript, Bool.false_eq_true, if_false] at h
    split at h
    · simp only [Option.some.injEq, Prod.mk.injEq] at h
      exact h.2.symm
    · split at h
      · simp only [Option.some.injEq, Prod.mk.injEq] at h
        exact h.2.symm
      · exact absurd h (by simp)
  · intro env req fs vid segs src lf hvid hflag hsubs hE
    simp [get_transcript, hvid, hsubs, hE]

/-- Witness for C2 amended: the captions-API selection keeps a human
transcript under the flag, while the platform stage of `c2env` returns an
auto-bucket result to a flag-false request. -/
theorem C2_amended_witness :
    ("human_captions" : String) = "human_captions" ∧
    (get_transcript c2env c2req ⟨0, 0⟩).1 =
      .ok (mkCaptionResult "abcdefghijk" "auto_captions"
        (pyStrOr "en" (pyOptOr c2req.lang "unknown")) false
        [⟨0, 0, "hello world"⟩]) :=
  ⟨C2_amended_thm.1 c2tl ["en"] c2t "human_captions" rfl,
   C2_amended_thm.2 c2env c2req ⟨0, 0⟩ "abcdefghijk" [⟨0, 0, "hello world"⟩]
     "auto_captions" "en" rfl rfl rfl rfl⟩

/-- A candidate with a truthy url is never the no-subtitles outcome. -/
theorem downloadTrack_ne_none (env : Env) (src lang : String) (t : Track)
    (u : String) (hu : urlTruthy t.url = some u) :
    downloadTrack env src lang t ≠ .ok none := by
  unfold downloadTrack
  rw [hu]
  cases hf : env.fetchUrl u with
  | error e => simp [hf]
  | ok body =>
    by_cases hv : lowerStr (t.ext.getD "") = "vtt"
    · simp only [hf, hv, if_true]
      cases hp : env.parseVtt body <;> simp [hp]
    · simp [hf, hv]

/-- `find?` over the tagged copy of a track list. -/
theorem find?_map_tracks (src c : String) (ts : List Track) :
    (ts.map fun t => (src, c, t)).find? hasUrl =
      (ts.find? fun t => (urlTruthy t.url).isSome).map fun t => (src, c, t) := by
  induction ts with
  | nil => rfl
  | cons t rest ih =>
    cases hu : (urlTruthy t.url).isSome <;>
      simp [List.find?_cons, hasUrl, hu, ih]

/-- The inner track loop selects the first track with a truthy url and
downloads it. -/
theorem tryTracks_flat (env : Env) (src lang : String) (ts : List Track) :
    tryTracks env src lang ts =
      match ts.find? (fun t => (urlTruthy t.url).isSome) with
      | none => .ok none
      | some t => downloadTrack env src lang t := by
  induction ts with
  | nil => rfl
  | cons t rest ih =>
    cases hu : urlTruthy t.url with
    | none =>
      simp only [tryTracks, hu, List.find?_cons, Option.isSome_none, cond_false]
      exact ih
    | some u =>
      simp only [tryTracks, hu, List.find?_cons, Option.isSome_some, cond_true,
        downloadTrack]

/-- The English-variants loop equals selection over its flattened
candidate list. -/
theorem tryLangs_flat (env : Env) (src : String) (m : List (String × List Track))
    (cs : List String) :
    tryLangs env src m cs = applyCand env (firstUrlCand (phaseLangs m src cs)) := by
  induction cs with
  | nil => rfl
  | cons c rest ih =>
    cases hl : lookupTracks m c with
    | none =>
      simp only [tryLangs, hl, phaseLangs, List.nil_append]
      exact ih
    | some ts =>
      cases ts with
      | nil =>
        simp only [tryLangs, hl, phaseLangs, List.map_nil, List.nil_append]
        exact ih
      | cons t ts' =>
        rw [show tryLangs env src m (c :: rest) =
              (match tryTracks env src c (t :: ts') with
               | .ok none => tryLangs env src m rest
               | r => r) by
            simp only [tryLangs, hl]]
        rw [tryTracks_flat]
        simp only [phaseLangs, hl, firstUrlCand, List.find?_append,
          find?_map_tracks]
        cases hf : (t :: ts').find? (fun tr => (urlTruthy tr.url).isSome) with
        | none =>
          simp only [Option.map_none, Option.none_or]
          exact ih
        | some t' =>
          have hc := List.find?_some hf
          obtain ⟨u, hu⟩ := Option.isSome_iff_exists.mp hc
          cases hdl : downloadTrack env src c t' with
          | error e => simp [hdl, applyCand]
          | ok o =>
            cases o with
            | none => exact absurd hdl (downloadTrack_ne_none env src c t' u hu)
            | some hit => simp [hdl, applyCand]

/-- The any-language loop equals selection over its flattened candidate
list. -/
theorem tryAnyLang_flat (env : Env) (src : String)
    (l : List (String × List Track)) :
    tryAnyLang env src l = applyCand env (firstUrlCand (phaseAll src l)) := by
  induction l with
  | nil => rfl
  | cons p rest ih =>
    obtain ⟨lang, ts⟩ := p
    rw [show tryAnyLang env src ((lang, ts) :: rest) =
          (match tryTracks env src lang ts with
           | .ok none => tryAnyLang env src rest
           | r => r) from rfl]
    rw [tryTracks_flat]
    simp only [phaseAll, firstUrlCand, List.find?_append, find?_map_tracks]
    cases hf : ts.find? (fun tr => (urlTruthy tr.url).isSome) with
    | none =>
      simp only [Option.map_none, Option.none_or]
      exact ih
    | some t' =>
      have hc := List.find?_some hf
      obtain ⟨u, hu⟩ := Option.isSome_iff_exists.mp hc
      cases hdl : downloadTrack env src lang t' with
      | error e => simp [hdl, applyCand]
      | ok o =>
        cases o with
        | none => exact absurd hdl (downloadTrack_ne_none env src lang t' u hu)
        | some hit => simp [hdl, applyCand]

/-- One bucket equals selection over its flattened candidate list. -/
theorem tryBucket_flat (env : Env) (src : String)
    (m : List (String × List Track)) :
    tryBucket env src m = applyCand env (firstUrlCand (bucketCands src m)) := by
  unfold tryBucket bucketCands
  rw [tryLangs_flat, tryAnyLang_flat]
  simp only [firstUrlCand, List.find?_append]
  cases hf : (phaseLangs m src ["en", "en-US", "en-GB"]).find? hasUrl with
  | none => simp [applyCand]
  | some cand =>
    obtain ⟨s, l, t⟩ := cand
    have hc := List.find?_some hf
    obtain ⟨u, hu⟩ := Option.isSome_iff_exists.mp hc
    cases hdl : downloadTrack env s l t with
    | error e => simp [hdl, applyCand]
    | ok o =>
      cases o with
      | none => exact absurd hdl (downloadTrack_ne_none env s l t u hu)
      | some hit => simp [hdl, applyCand]

/-- The platform stage equals first-url-candidate selection over the
code's flattened candidate order. -/
theorem fetch_subs_flat (env : Env) :
    fetch_subs_with_ytdlp env =
      match env.subsInfo with
      | .error e => .error e
      | .ok info => applyCand env (firstUrlCand (candidates info)) := by
  unfold fetch_subs_with_ytdlp
  cases hi : env.subsInfo with
  | error e => rfl
  | ok info =>
    dsimp only
    rw [tryBucket_flat, tryBucket_flat]
    simp only [candidates, firstUrlCand, List.find?_append]
    cases hf : (bucketCands "human_captions" info.subtitles).find? hasUrl with
    | none => simp [applyCand]
    | some cand =>
      obtain ⟨s, l, t⟩ := cand
      have hc := List.find?_some hf
      obtain ⟨u, hu⟩ := Option.isSome_iff_exists.mp hc
      cases hdl : downloadTrack env s l t with
      | error e => simp [hdl, applyCand]
      | ok o =>
        cases o with
        | none => exact absurd hdl (downloadTrack_ne_none env s l t u hu)
        | some hit => simp [hdl, applyCand]

/-- The shared caption-result constructor satisfies the result-shape
invariant by construction. -/
theorem mk_inv (vid src lang : String) (tr : Bool) (segs : List Segment) :
    resultInv (mkCaptionResult vid src lang tr segs) := by
  constructor <;> simp [resultInv, mkCaptionResult, wordCount, approxRuntime]

/-- The whisper result satisfies the result-shape invariant: its single
segment carries the whole text at `start = duration = 0`. -/
theorem whisper_inv (vid : String) (req : TranscriptReq) (text : String) :
    resultInv { video_id := vid, source := "whisper_transcription",
                language := pyOptOr req.lang "unknown", translated := false,
                segments := [⟨0, 0, text⟩], word_count := tokenCount text,
                approx_runtime_seconds := 0 } := by
  constructor
  · simp [resultInv]
  · norm_num [resultInv, listMax]

/-- Every success of the captions-API stage satisfies the result-shape
invariant. -/
theorem ytaStage_inv (env : Env) (req : TranscriptReq) (vid : String)
    (r : TranscriptResult) (h : ytaStage env req vid = .ok r) : resultInv r := by
  unfold ytaStage at h
  dsimp only at h
  split at h
  all_goals try split at h
  all_goals try split at h
  all_goals try split at h
  all_goals
    first
    | exact Except.noConfusion h
    | (injection h with h'; subst h'; exact mk_inv ..)

/-- Every success of the whisper branch satisfies the result-shape
invariant. -/
theorem whisperCont_inv (env : Env) (req : TranscriptReq) (vid le : String)
    (fs fs' : FS) (r : TranscriptResult)
    (h : whisperCont env req vid le fs = (.ok r, fs')) : resultInv r := by
  unfold whisperCont at h
  split at h
  · simp only [Prod.mk.injEq, Except.ok.injEq] at h
    obtain ⟨rfl, -⟩ := h
    exact whisper_inv ..
  · simp at h

/-- Every success of the captions-API continuation satisfies the
result-shape invariant. -/
theorem ytaCont_inv (env : Env) (req : TranscriptReq) (vid le : String)
    (fs fs' : FS) (r : TranscriptResult)
    (h : ytaCont env req vid le fs = (.ok r, fs')) : resultInv r := by
  unfold ytaCont at h
  split at h
  · rename_i r' heq
    simp only [Prod.mk.injEq, Except.ok.injEq] at h
    obtain ⟨rfl, -⟩ := h
    exact ytaStage_inv env req vid r' heq
  · exact whisperCont_inv env req vid _ fs fs' r h

/-- C5: every successful `TranscriptResult` of the pipeline — from any of
the three stages — has `word_count` equal to the total whitespace-token
count of its segment texts, and `approx_runtime_seconds` equal to
`max(start+duration)` over its segments, `0` when segments is empty. -/
theorem C5_thm (env : Env) (req : TranscriptReq) (fs fs' : FS)
    (r : TranscriptResult) (h : get_transcript env req fs = (.ok r, fs')) :
    r.word_count = (r.segments.map fun s => tokenCount s.text).sum ∧
    r.approx_runtime_seconds =
      (if r.segments.isEmpty then 0
       else listMax (r.segments.map fun s => s.start + s.duration)) := by
  have hinv : resultInv r := by
    unfold get_transcript at h
    split at h
    · simp at h
    · split at h
      · split at h
        · exact ytaCont_inv _ _ _ _ _ _ _ h
        · simp only [Prod.mk.injEq, Except.ok.injEq] at h
          obtain ⟨rfl, -⟩ := h
          exact mk_inv ..
      · exact ytaCont_inv _ _ _ _ _ _ _ h
      · exact ytaCont_inv _ _ _ _ _ _ _ h
  exact hinv

/-- Witness for C5 through the captions-API direct mode at `c5env`. -/
theorem C5_witness :
    (mkCaptionResult "abcdefghijk" "unknown" "en" false
      [⟨3, 4, "two words"⟩]).word_count =
      (((mkCaptionResult "abcdefghijk" "unknown" "en" false
        [⟨3, 4, "two words"⟩]).segments.map fun s => tokenCount s.text)).sum ∧
    (mkCaptionResult "abcdefghijk" "unknown" "en" false
      [⟨3, 4, "two words"⟩]).approx_runtime_seconds =
      (if (mkCaptionResult "abcdefghijk" "unknown" "en" false
            [⟨3, 4, "two words"⟩]).segments.isEmpty then 0
       else listMax ((mkCaptionResult "abcdefghijk" "unknown" "en" false
         [⟨3, 4, "two words"⟩]).segments.map fun s => s.start + s.duration)) :=
  C5_thm c5env { video_id := some "abcdefghijk", lang := some "en" } ⟨0, 0⟩ ⟨0, 0⟩
    (mkCaptionResult "abcdefghijk" "unknown" "en" false [⟨3, 4, "two words"⟩]) rfl

/-- C3 amended: the platform stage's actual selection is the first
url-bearing candidate of: human bucket x (en, en-US, en-GB), then human
bucket x all manifest languages, then the same two phases of the
auto-generated bucket — the user-requested language is never consulted,
and the human bucket's any-language fallback precedes the auto bucket's
preferred languages. -/
theorem C3_amended_thm (env : Env) :
    fetch_subs_with_ytdlp env =
      match env.subsInfo with
      | .error e => .error e
      | .ok info => applyCand env (firstUrlCand (candidates info)) :=
  fetch_subs_flat env

/-- Every candidate of the English-variants phase carries the bucket
label it was built with. -/
theorem phaseLangs_src (m : List (String × List Track)) (src : String)
    (cs : List String) :
    ∀ x ∈ phaseLangs m src cs, x.1 = src := by
  induction cs with
  | nil => simp [phaseLangs]
  | cons c rest ih =>
    intro x hx
    simp only [phaseLangs, List.mem_append] at hx
    rcases hx with hx | hx
    · cases hl : lookupTracks m c with
      | none => rw [hl] at hx; simp at hx
      | some ts =>
        rw [hl] at hx
        obtain ⟨t, -, rfl⟩ := List.mem_map.mp hx
        rfl
    · exact ih x hx

/-- Every candidate of the any-language phase carries the bucket label it
was built with. -/
theorem phaseAll_src (src : String) (l : List (String × List Track)) :
    ∀ x ∈ phaseAll src l, x.1 = src := by
  induction l with
  | nil => simp [phaseAll]
  | cons p rest ih =>
    obtain ⟨lang, ts⟩ := p
    intro x hx
    simp only [phaseAll, List.mem_append] at hx
    rcases hx with hx | hx
    · obtain ⟨t, -, rfl⟩ := List.mem_map.mp hx
      rfl
    · exact ih x hx

/-- Every candidate of the full order is labelled `human_captions` or
`auto_captions`. -/
theorem candidates_src (info : Info) :
    ∀ x ∈ candidates info,
      x.1 = "human_captions" ∨ x.1 = "auto_captions" := by
  intro x hx
  simp only [candidates, bucketCands, List.append_assoc, List.mem_append] at hx
  rcases hx with hx | hx | hx | hx
  · exact .inl (phaseLangs_src _ _ _ x hx)
  · exact .inl (phaseAll_src _ _ x hx)
  · exact .inr (phaseLangs_src _ _ _ x hx)
  · exact .inr (phaseAll_src _ _ x hx)

/-- A successful download reports the bucket label of its candidate. -/
theorem downloadTrack_src (env : Env) (s l : String) (t : Track)
    (segs : List Segment) (src lang : String)
    (h : downloadTrack env s l t = .ok (some (segs, src, lang))) : src = s := by
  unfold downloadTrack at h
  split at h
  · simp at h
  · split at h
    · simp at h
    · split at h
      · split at h
        · simp at h
        · simp only [Except.ok.injEq, Option.some.injEq, Prod.mk.injEq] at h
          exact h.2.1.symm
      · simp only [Except.ok.injEq, Option.some.injEq, Prod.mk.injEq] at h
        exact h.2.1.symm

/-- The platform stage only ever reports the two caption bucket labels. -/
theorem fetch_subs_src (env : Env) (segs : List Segment) (src lang : String)
    (h : fetch_subs_with_ytdlp env = .ok (some (segs, src, lang))) :
    src = "human_captions" ∨ src = "auto_captions" := by
  rw [fetch_subs_flat] at h
  split at h
  · simp at h
  · rename_i info hinfo
    cases hf : firstUrlCand (candidates info) with
    | none => rw [hf] at h; simp [applyCand] at h
    | some cand =>
      rw [hf] at h
      obtain ⟨s, l, t⟩ := cand
      have hmem : (s, l, t) ∈ candidates info :=
        List.mem_of_find?_eq_some hf
      have hs := downloadTrack_src env s l t segs src lang h
      rw [hs]
      exact candidates_src info (s, l, t) hmem

/-- The captions-API discovery selection only ever reports the two
caption bucket labels. -/
theorem selectTranscript_src (tl : TranscriptList) (langs : List String)
    (allowAuto : Bool) (t : Transcript) (s : String)
    (h : selectTranscript tl langs allowAuto = some (t, s)) :
    s = "human_captions" ∨ s = "auto_captions" := by
  unfold selectTranscript at h
  dsimp only at h
  split at h
  all_goals try split at h
  all_goals try split at h
  all_goals try split at h
  all_goals try split at h
  all_goals
    first
    | exact Option.noConfusion h
    | (simp only [Option.some.injEq, Prod.mk.injEq] at h
       first
       | exact .inl h.2.symm
       | exact .inr h.2.symm)

/-- The captions-API stage only ever reports `human_captions`,
`auto_captions` or `unknown`. -/
theorem ytaStage_src (env : Env) (req : TranscriptReq) (vid : String)
    (r : TranscriptResult) (h : ytaStage env req vid = .ok r) :
    r.source = "human_captions" ∨ r.source = "auto_captions" ∨
      r.source = "unknown" := by
  unfold ytaStage at h
  dsimp only at h
  split at h
  · split at h
    · exact Except.noConfusion h
    · split at h
      · exact Except.noConfusion h
      · rename_i t source hsel
        split at h
        · exact Except.noConfusion h
        · injection h with h'
          subst h'
          rcases selectTranscript_src _ _ _ _ _ hsel with hs | hs
          · exact .inl hs
          · exact .inr (.inl hs)
  · split at h
    · exact Except.noConfusion h
    · injection h with h'
      subst h'
      exact .inr (.inr rfl)
    · split at h
      · split at h
        · injection h with h'
          subst h'
          exact .inr (.inr rfl)
        · exact Except.noConfusion h
      · exact Except.noConfusion h

/-- The whisper branch: a successful result with source
`whisper_transcription` carries `req.lang or "unknown"` as its language,
independently of the transcribed text. -/
theorem ytaCont_whisper_lang (env : Env) (req : TranscriptReq)
    (vid le : String) (fs fs' : FS) (r : TranscriptResult)
    (h : ytaCont env req vid le fs = (.ok r, fs'))
    (hsrc : r.source = "whisper_transcription") :
    r.language = pyOptOr req.lang "unknown" := by
  unfold ytaCont at h
  split at h
  · rename_i r' heq
    simp only [Prod.mk.injEq, Except.ok.injEq] at h
    obtain ⟨rfl, -⟩ := h
    rcases ytaStage_src env req vid r' heq with hs | hs | hs <;>
      rw [hs] at hsrc <;> exact absurd hsrc (by decide)
  · unfold whisperCont at h
    split at h
    · simp only [Prod.mk.injEq, Except.ok.injEq] at h
      obtain ⟨rfl, -⟩ := h
      rfl
    · simp at h

/-- C10 amended: a result produced by the whisper fallback carries
`language = req.lang` when a non-empty `lang` was provided and
`"unknown"` when `lang` is absent or empty — never a language detected
from the audio. -/
theorem C10_amended_thm (env : Env) (req : TranscriptReq) (fs fs' : FS)
    (r : TranscriptResult) (h : get_transcript env req fs = (.ok r, fs'))
    (hsrc : r.source = "whisper_transcription") :
    r.language = pyOptOr req.lang "unknown" := by
  unfold get_transcript at h
  split at h
  · simp at h
  · split at h
    · rename_i segs src lf heq
      split at h
      · exact ytaCont_whisper_lang _ _ _ _ _ _ _ h hsrc
      · simp only [Prod.mk.injEq, Except.ok.injEq] at h
        obtain ⟨rfl, -⟩ := h
        rcases fetch_subs_src env segs src lf heq with hs | hs <;>
          rw [show (mkCaptionResult _ src _ false segs).source = src from rfl, hs]
            at hsrc <;> exact absurd hsrc (by decide)
    · exact ytaCont_whisper_lang _ _ _ _ _ _ _ h hsrc
    · exact ytaCont_whisper_lang _ _ _ _ _ _ _ h hsrc

/-- Witness for C10 amended: a whisper success with `lang = "fr"`. -/
theorem C10_amended_witness :
    c10wRes.language = pyOptOr c10wReq.lang "unknown" :=
  C10_amended_thm c10env c10wReq ⟨0, 0⟩ ⟨0, 0⟩ c10wRes rfl rfl

/-- C8: in discovery mode, when `translate_to` is set (non-empty),
differs from the selected transcript's language, and the translation
attempt fails, the stage still succeeds with the untranslated
transcript's items and reports `translated = false`. -/
theorem C8_thm (env : Env) (req : TranscriptReq) (vid : String)
    (tl : TranscriptList) (t : Transcript) (src tgt : String) (e : Err)
    (items : List Item)
    (hla : env.listAvail = true)
    (htl : env.listTranscripts = .ok tl)
    (hsel : selectTranscript tl (langsOf req) req.allow_auto_captions =
      some (t, src))
    (htgt : req.translate_to = some tgt) (hne : tgt ≠ "")
    (hdiff : ∀ l, t.base.language_code = some l → tgt ≠ l)
    (htr : t.translateR tgt = .error e)
    (hft : t.base.fetchR = .ok items) :
    ytaStage env req vid =
      .ok (mkCaptionResult vid src
        (pyOptOr t.base.language_code (pyOptOr req.lang "unknown")) false
        (items.map itemToSeg)) := by
  have hcond : (tgt != "" && (match t.base.language_code with
                 | some l => tgt != l
                 | none => true)) = true := by
    cases hlc : t.base.language_code with
    | none => simp [hne]
    | some l =>
      have hd := hdiff l hlc
      simp [hne, hd]
  have hts : translateStep t req.translate_to = (t.base, false) := by
    rw [htgt]
    unfold translateStep
    simp [hcond, htr]
  simp only [ytaStage, hla, if_true, htl, hsel, hts, hft]

/-- Witness for C8 at `c8env`/`c8req` (German translation of an English
transcript fails; the English items are returned untranslated). -/
theorem C8_witness :
    ytaStage c8env c8req "abcdefghijk" =
      .ok (mkCaptionResult "abcdefghijk" "human_captions"
        (pyOptOr c8t.base.language_code (pyOptOr c8req.lang "unknown")) false
        ([⟨some 1, some 2, some "guten tag"⟩].map itemToSeg)) :=
  C8_thm c8env c8req "abcdefghijk" c8tl c8t "human_captions" "de"
    ⟨"TranslationError", "not translatable"⟩ [⟨some 1, some 2, some "guten tag"⟩]
    rfl rfl rfl rfl (by decide)
    (fun l hl => by
      injection hl with h
      subst h
      decide)
    rfl rfl

/-- On an input that is neither empty nor a bare id, the resolver is the
regex search. -/
theorem extract_eq_search (s : List Char) (h1 : s.isEmpty = false)
    (h2 : valid11 s = false) : extract_video_id s = yidSearch s := by
  simp [extract_video_id, h1, h2]

/-- A valid capture is 11 characters long. -/
theorem valid11_length (l : List Char) (h : valid11 l = true) :
    l.length = 11 := by
  simp only [valid11, Bool.and_eq_true, beq_iff_eq] at h
  exact h.1

/-- A list of the wrong length is not a bare id. -/
theorem valid11_false_of_length (l : List Char) (h : l.length ≠ 11) :
    valid11 l = false := by
  have hb : (l.length == 11) = false := by
    simpa using h
  simp [valid11, hb]

/-- The first 11 characters after the marker are exactly the embedded
id. -/
theorem take_eq_of_valid11 (v suffix : List Char) (hv : valid11 v = true) :
    (v ++ suffix).take 11 = v := by
  have h11 : v.length = 11 := valid11_length v hv
  rw [← h11]
  exact List.take_left ..

/-- `isPrefixOf` holds along an append. -/
theorem isPrefixOf_append_self (m t : List Char) :
    m.isPrefixOf (m ++ t) = true := by
  induction m with
  | nil => simp [List.isPrefixOf]
  | cons a as ih => simp [List.isPrefixOf, ih]

/-- `isPrefixOf` decomposes its argument. -/
theorem eq_append_of_isPrefixOf (m s : List Char)
    (h : m.isPrefixOf s = true) : ∃ t, s = m ++ t := by
  induction m generalizing s with
  | nil => exact ⟨s, rfl⟩
  | cons a as ih =>
    cases s with
    | nil => simp [List.isPrefixOf] at h
    | cons b bs =>
      simp only [List.isPrefixOf, Bool.and_eq_true, beq_iff_eq] at h
      obtain ⟨rfl, hrest⟩ := h
      obtain ⟨t, ht⟩ := ih bs hrest
      exact ⟨t, by rw [ht, List.cons_append]⟩

/-- A marker followed by a valid id captures that id. -/
theorem tryMarker_hit (m v suffix : List Char) (hv : valid11 v = true) :
    tryMarker m (m ++ (v ++ suffix)) = some v := by
  have hpre : m.isPrefixOf (m ++ (v ++ suffix)) = true :=
    isPrefixOf_append_self ..
  have hdrop : (m ++ (v ++ suffix)).drop m.length = v ++ suffix :=
    List.drop_left ..
  have htake := take_eq_of_valid11 v suffix hv
  simp [tryMarker, hpre, hdrop, htake, hv]

/-- Position match at a `v=` marker. -/
theorem tryHere_hit_v (v suffix : List Char) (hv : valid11 v = true) :
    tryHere (vMark ++ (v ++ suffix)) = some v := by
  have h := tryMarker_hit vMark v suffix hv
  simp [tryHere, h]

/-- Position match at a `youtu.be/` marker (the `v=` alternative fails on
the leading `y`). -/
theorem tryHere_hit_yt (v suffix : List Char) (hv : valid11 v = true) :
    tryHere (ytMark ++ (v ++ suffix)) = some v := by
  have h0 : tryMarker vMark (ytMark ++ (v ++ suffix)) = none := rfl
  have h := tryMarker_hit ytMark v suffix hv
  simp [tryHere, h0, h]

/-- Position match at a `shorts/` marker (the other alternatives fail on
the leading `s`). -/
theorem tryHere_hit_sh (v suffix : List Char) (hv : valid11 v = true) :
    tryHere (shMark ++ (v ++ suffix)) = some v := by
  have h0 : tryMarker vMark (shMark ++ (v ++ suffix)) = none := rfl
  have h1 : tryMarker ytMark (shMark ++ (v ++ suffix)) = none := rfl
  have h := tryMarker_hit shMark v suffix hv
  simp [tryHere, h0, h1, h]

/-- A position match makes the scan stop with that capture. -/
theorem yidSearch_cons_some (c : Char) (s : List Char) (w : List Char)
    (h : tryHere (c :: s) = some w) : yidSearch (c :: s) = some w := by
  simp only [yidSearch, h]

/-- Scan of a standard watch URL: the concrete prefix contains no earlier
match, so the scan reduces to the `v=` position. -/
theorem yidSearch_watch (v suffix : List Char) (hv : valid11 v = true) :
    yidSearch ("https://www.youtube.com/watch?".data ++ (vMark ++ (v ++ suffix))) =
      some v := by
  have h1 : yidSearch ("https://www.youtube.com/watch?".data ++
        (vMark ++ (v ++ suffix))) =
      yidSearch ('v' :: '=' :: (v ++ suffix)) := rfl
  rw [h1]
  exact yidSearch_cons_some 'v' ('=' :: (v ++ suffix)) v (tryHere_hit_v v suffix hv)

/-- Scan of a standard `youtu.be` URL. -/
theorem yidSearch_youtu (v suffix : List Char) (hv : valid11 v = true) :
    yidSearch ("https://".data ++ (ytMark ++ (v ++ suffix))) = some v := by
  have h1 : yidSearch ("https://".data ++ (ytMark ++ (v ++ suffix))) =
      yidSearch ('y' :: 'o' :: 'u' :: 't' :: 'u' :: '.' :: 'b' :: 'e' :: '/' ::
        (v ++ suffix)) := rfl
  rw [h1]
  exact yidSearch_cons_some 'y' _ v (tryHere_hit_yt v suffix hv)

/-- Scan of a standard shorts URL. -/
theorem yidSearch_shorts (v suffix : List Char) (hv : valid11 v = true) :
    yidSearch ("https://www.youtube.com/".data ++ (shMark ++ (v ++ suffix))) =
      some v := by
  have h1 : yidSearch ("https://www.youtube.com/".data ++
        (shMark ++ (v ++ suffix))) =
      yidSearch ('s' :: 'h' :: 'o' :: 'r' :: 't' :: 's' :: '/' ::
        (v ++ suffix)) := rfl
  rw [h1]
  exact yidSearch_cons_some 's' _ v (tryHere_hit_sh v suffix hv)

/-- A marker match decomposes the input at that position. -/
theorem tryMarker_shape (m s w : List Char) (h : tryMarker m s = some w) :
    valid11 w = true ∧ ∃ post, s = m ++ (w ++ post) := by
  unfold tryMarker at h
  split at h
  · rename_i hpre
    dsimp only at h
    split at h
    · rename_i hval
      injection h with h'
      subst h'
      refine ⟨hval, (s.drop m.length).drop 11, ?_⟩
      obtain ⟨t, rfl⟩ := eq_append_of_isPrefixOf _ _ hpre
      rw [List.drop_left, List.take_append_drop]
    · exact Option.noConfusion h
  · exact Option.noConfusion h

/-- A position match decomposes the input at one of the three markers. -/
theorem tryHere_shape (s w : List Char) (h : tryHere s = some w) :
    ∃ m, (m = vMark ∨ m = ytMark ∨ m = shMark) ∧ valid11 w = true ∧
      ∃ post, s = m ++ (w ++ post) := by
  unfold tryHere at h
  split at h
  · rename_i r hm
    injection h with h'
    subst h'
    obtain ⟨hv, post, hp⟩ := tryMarker_shape _ _ _ hm
    exact ⟨vMark, .inl rfl, hv, post, hp⟩
  · split at h
    · rename_i r hm
      injection h with h'
      subst h'
      obtain ⟨hv, post, hp⟩ := tryMarker_shape _ _ _ hm
      exact ⟨ytMark, .inr (.inl rfl), hv, post, hp⟩
    · obtain ⟨hv, post, hp⟩ := tryMarker_shape _ _ _ h
      exact ⟨shMark, .inr (.inr rfl), hv, post, hp⟩

/-- A successful scan exhibits a supported shape in the input. -/
theorem yidSearch_shape (s : List Char) :
    ∀ w, yidSearch s = some w → HasShape s := by
  induction s with
  | nil => intro w h; exact Option.noConfusion h
  | cons c rest ih =>
    intro w h
    rw [yidSearch] at h
    split at h
    · rename_i r hth
      obtain ⟨m, hm, hv, post, hp⟩ := tryHere_shape _ _ hth
      exact ⟨[], m, r, post, hm, hv, by simpa using hp⟩
    · obtain ⟨pre, m, w', post, hm, hv, hp⟩ := ih w h
      exact ⟨c :: pre, m, w', post, hm, hv, by simp [hp]⟩

/-- C9: embedding a valid 11-character id into any of the three supported
URL shapes resolves to exactly the id that the bare input resolves to;
and an input that contains no marker-plus-id shape and is not itself a
bare id resolves to the not-found signal. -/
theorem C9_thm :
    (∀ v suffix : List Char, valid11 v = true →
      extract_video_id v = some v ∧
      extract_video_id ("https://www.youtube.com/watch?".data ++
        (vMark ++ (v ++ suffix))) = some v ∧
      extract_video_id ("https://".data ++ (ytMark ++ (v ++ suffix))) = some v ∧
      extract_video_id ("https://www.youtube.com/".data ++
        (shMark ++ (v ++ suffix))) = some v) ∧
    (∀ s : List Char, ¬ HasShape s → valid11 s = false →
      extract_video_id s = none) := by
  constructor
  · intro v suffix hv
    have hl : v.length = 11 := valid11_length v hv
    have hbare : extract_video_id v = some v := by
      have hne : v.isEmpty = false := by
        cases v with
        | nil => simp at hl
        | cons c r => rfl
      simp [extract_video_id, hne, hv]
    refine ⟨hbare, ?_, ?_, ?_⟩
    · have hp : ("https://www.youtube.com/watch?".data).length = 30 := rfl
      have hV : valid11 ("https://www.youtube.com/watch?".data ++
          (vMark ++ (v ++ suffix))) = false := by
        apply valid11_false_of_length
        simp [List.length_append, hp, hl, vMark]
      rw [extract_eq_search ("https://www.youtube.com/watch?".data ++
            (vMark ++ (v ++ suffix))) rfl hV, yidSearch_watch v suffix hv]
    · have hp : ("https://".data).length = 8 := rfl
      have hV : valid11 ("https://".data ++ (ytMark ++ (v ++ suffix))) = false := by
        apply valid11_false_of_length
        simp [List.length_append, hp, hl, ytMark]
      rw [extract_eq_search ("https://".data ++ (ytMark ++ (v ++ suffix)))
            rfl hV, yidSearch_youtu v suffix hv]
    · have hp : ("https://www.youtube.com/".data).length = 24 := rfl
      have hV : valid11 ("https://www.youtube.com/".data ++
          (shMark ++ (v ++ suffix))) = false := by
        apply valid11_false_of_length
        simp [List.length_append, hp, hl, shMark]
      rw [extract_eq_search ("https://www.youtube.com/".data ++
            (shMark ++ (v ++ suffix))) rfl hV, yidSearch_shorts v suffix hv]
  · intro s hshape hval
    cases hE : s.isEmpty with
    | true => simp [extract_video_id, hE]
    | false =>
      rw [extract_eq_search s hE hval]
      cases hs : yidSearch s with
      | none => rfl
      | some w => exact absurd (yidSearch_shape s w hs) hshape

/-- Witness for C9: a concrete id in a watch URL with a query suffix, and
a concrete shapeless input. -/
theorem C9_witness :
    extract_video_id ("https://www.youtube.com/watch?v=dQw4w9WgXcQ&t=1".data) =
      some ("dQw4w9WgXcQ".data) ∧
    extract_video_id ("hello".data) = none := by
  constructor
  · exact (C9_thm.1 ("dQw4w9WgXcQ".data) ("&t=1".data) (by decide)).2.1
  · refine C9_thm.2 ("hello".data) ?_ (by decide)
    rintro ⟨pre, m, w, post, hm, hv, heq⟩
    have hw : w.length = 11 := valid11_length w hv
    have hlen : ("hello".data).length = 5 := rfl
    rw [heq] at hlen
    simp only [List.length_append, hw] at hlen
    rcases hm with rfl | rfl | rfl <;>
      simp only [vMark, ytMark, shMark, List.length_cons, List.length_nil]
        at hlen <;> omega

/-- C10 counterexample: a request that succeeds via whisper with a
provided (but empty) `lang` gets `language = "unknown"`, not the provided
value. -/
theorem C10_counterexample :
    c10req.lang = some "" ∧
    (get_transcript c10env c10req ⟨0, 0⟩).1 =
      .ok { video_id := "abcdefghijk", source := "whisper_transcription",
            language := "unknown", translated := false,
            segments := [⟨0, 0, "hi there friend"⟩], word_count := 3,
            approx_runtime_seconds := 0 } ∧
    (("unknown" : String) ≠ "") :=
  ⟨rfl, rfl, by decide⟩

end YTS
